import Mathlib

/-!
Verification of the square-root benchmark program (src/sqrt/main.cpp).

Floats are embedded as their IEEE-754 bit patterns (natural numbers below
2 ^ (1 + eb + sb), where eb is the number of exponent bits and sb the number
of fraction bits; binary32 is eb = 8, sb = 23 and binary64 is eb = 11,
sb = 52).  The exact value of a finite float is a rational number, and each
arithmetic operation of the source (float addition and division, double
multiplication, the conversions between float and double) is computed by
taking the exact rational result and rounding it to the target format with
IEEE round-to-nearest, ties-to-even, with the special values (NaN,
infinities, signed zeros) handled as IEEE-754 prescribes.  Exact rationals
are carried as unnormalized fractions of integers (a positive denominator is
maintained by construction), so that every operation reduces in the kernel.
Library routines whose numeric behaviour the source does not define (pow,
sqrtf, printf float formatting) are abstract parameters collected in the
structure LibM.
-/

namespace SqrtBench

/-- An exact rational n / d; every constructor application in this file
keeps d positive. -/
structure Frac where
  n : ℤ
  d : ℤ

/-- Sum of two fractions. -/
def fadd (a b : Frac) : Frac := ⟨a.n * b.d + b.n * a.d, a.d * b.d⟩

/-- Product of two fractions. -/
def fmul (a b : Frac) : Frac := ⟨a.n * b.n, a.d * b.d⟩

/-- Quotient of two fractions (the divisor is nonzero wherever this is
applied; the sign is moved into the numerator to keep the denominator
positive). -/
def fdiv (a b : Frac) : Frac :=
  if 0 ≤ b.n then ⟨a.n * b.d, a.d * b.n⟩ else ⟨-(a.n * b.d), a.d * (-b.n)⟩

/-- Negation of a fraction. -/
def fneg (a : Frac) : Frac := ⟨-a.n, a.d⟩

/-- Absolute value of a fraction. -/
def fabs (a : Frac) : Frac := if a.n < 0 then fneg a else a

/-- The fraction is strictly negative (d is positive by construction). -/
def fisNeg (a : Frac) : Bool := a.n < 0

/-- The fraction is zero. -/
def fisZero (a : Frac) : Bool := a.n == 0

/-- Multiply a fraction by an integer power of two. -/
def fmulPow2 (a : Frac) (k : ℤ) : Frac :=
  if 0 ≤ k then ⟨a.n * Int.ofNat (2 ^ k.toNat), a.d⟩
  else ⟨a.n, a.d * Int.ofNat (2 ^ (-k).toNat)⟩

/-- The fraction of an integer. -/
def fofInt (n : ℤ) : Frac := ⟨n, 1⟩

/-- Exponent bias of a binary format with eb exponent bits. -/
def bias (eb : ℕ) : ℤ := Int.ofNat (2 ^ (eb - 1)) - 1

/-- Sign bit of a bit pattern. -/
def sgnB (eb sb b : ℕ) : Bool := b / 2 ^ (eb + sb) % 2 == 1

/-- Biased exponent field of a bit pattern. -/
def expF (eb sb b : ℕ) : ℕ := b / 2 ^ sb % 2 ^ eb

/-- Fraction field of a bit pattern. -/
def fracF (sb b : ℕ) : ℕ := b % 2 ^ sb

/-- The bit pattern encodes a NaN. -/
def isNaNB (eb sb b : ℕ) : Bool := (expF eb sb b == 2 ^ eb - 1) && (fracF sb b != 0)

/-- The bit pattern encodes an infinity. -/
def isInfB (eb sb b : ℕ) : Bool := (expF eb sb b == 2 ^ eb - 1) && (fracF sb b == 0)

/-- The bit pattern encodes a (signed) zero. -/
def isZeroB (eb sb b : ℕ) : Bool := (expF eb sb b == 0) && (fracF sb b == 0)

/-- The bit pattern encodes a finite value (neither NaN nor infinity). -/
def isFiniteB (eb sb b : ℕ) : Bool := expF eb sb b != 2 ^ eb - 1

/-- Magnitude (absolute value) of a finite bit pattern, as an exact rational. -/
def magRat (eb sb b : ℕ) : Frac :=
  if expF eb sb b = 0 then
    fmulPow2 (fofInt (Int.ofNat (fracF sb b))) (1 - bias eb - Int.ofNat sb)
  else
    fmulPow2 (fofInt (Int.ofNat (2 ^ sb + fracF sb b)))
      (Int.ofNat (expF eb sb b) - bias eb - Int.ofNat sb)

/-- Signed exact value of a finite bit pattern. -/
def valRat (eb sb b : ℕ) : Frac :=
  if sgnB eb sb b then fneg (magRat eb sb b) else magRat eb sb b

/-- Attach a sign bit to a magnitude-only bit pattern. -/
def packSign (eb sb : ℕ) (neg : Bool) (mag : ℕ) : ℕ :=
  (if neg then 2 ^ (eb + sb) else 0) + mag

/-- Canonical quiet NaN of a format. -/
def qNaN (eb sb : ℕ) : ℕ := (2 ^ eb - 1) * 2 ^ sb + 2 ^ (sb - 1)

/-- Positive infinity of a format (magnitude bits). -/
def infB (eb sb : ℕ) : ℕ := (2 ^ eb - 1) * 2 ^ sb

/-- Largest k with 2 ^ k ≤ a, for a ≥ 1 (fuel-bounded structural recursion;
a < 2 is n < 2d for a positive fraction). -/
def log2Ge1 : ℕ → Frac → ℕ
  | 0, _ => 0
  | fuel + 1, a => if a.n < 2 * a.d then 0 else log2Ge1 fuel ⟨a.n, 2 * a.d⟩ + 1

/-- Smallest k with 1 ≤ a * 2 ^ k, for 0 < a < 1 (fuel-bounded). -/
def log2Lt1 : ℕ → Frac → ℕ
  | 0, _ => 0
  | fuel + 1, a => if a.d ≤ a.n then 0 else log2Lt1 fuel ⟨2 * a.n, a.d⟩ + 1

/-- Binary logarithm (rounded down) of a positive fraction: the unique e with
2 ^ e ≤ a < 2 ^ (e + 1).  The fuel 5000 covers every exponent reachable from
binary64 arithmetic. -/
def ratLog2 (a : Frac) : ℤ :=
  if a.d ≤ a.n then Int.ofNat (log2Ge1 5000 a) else -Int.ofNat (log2Lt1 5000 a)

/-- Round a positive fraction to the nearest representable magnitude of the
format (ties to even), returning magnitude bits; overflows to infinity and
underflows through the subnormals down to zero. -/
def roundPosRat (eb sb : ℕ) (a : Frac) : ℕ :=
  let lo : ℤ := 1 - bias eb
  let l : ℤ := ratLog2 a
  let e : ℤ := if l ≤ lo then lo else l
  let scaled : Frac := fmulPow2 a (Int.ofNat sb - e)
  let n0 : ℤ := Int.ediv scaled.n scaled.d
  let rem2 : ℤ := 2 * (scaled.n - n0 * scaled.d)
  let n1 : ℤ :=
    if scaled.d < rem2 then n0 + 1
    else if rem2 < scaled.d then n0
    else if Int.emod n0 2 = 0 then n0 else n0 + 1
  let n : ℤ := if n1 = Int.ofNat (2 ^ (sb + 1)) then Int.ofNat (2 ^ sb) else n1
  let e2 : ℤ := if n1 = Int.ofNat (2 ^ (sb + 1)) then e + 1 else e
  if bias eb < e2 then infB eb sb
  else if n < Int.ofNat (2 ^ sb) then n.toNat
  else (e2 + bias eb).toNat * 2 ^ sb + (n.toNat - 2 ^ sb)

/-- IEEE-754 addition on bit patterns of a binary format (round to nearest,
ties to even). -/
def fAdd (eb sb : ℕ) (x y : ℕ) : ℕ :=
  if isNaNB eb sb x || isNaNB eb sb y then qNaN eb sb
  else if isInfB eb sb x && isInfB eb sb y then
    (if sgnB eb sb x == sgnB eb sb y then x else qNaN eb sb)
  else if isInfB eb sb x then x
  else if isInfB eb sb y then y
  else
    let s : Frac := fadd (valRat eb sb x) (valRat eb sb y)
    if fisZero s then
      (if sgnB eb sb x && sgnB eb sb y then packSign eb sb true 0 else 0)
    else packSign eb sb (fisNeg s) (roundPosRat eb sb (fabs s))

/-- IEEE-754 multiplication on bit patterns of a binary format. -/
def fMul (eb sb : ℕ) (x y : ℕ) : ℕ :=
  if isNaNB eb sb x || isNaNB eb sb y then qNaN eb sb
  else
    let neg : Bool := sgnB eb sb x != sgnB eb sb y
    if (isInfB eb sb x && isZeroB eb sb y) || (isZeroB eb sb x && isInfB eb sb y) then
      qNaN eb sb
    else if isInfB eb sb x || isInfB eb sb y then packSign eb sb neg (infB eb sb)
    else if isZeroB eb sb x || isZeroB eb sb y then packSign eb sb neg 0
    else packSign eb sb neg (roundPosRat eb sb (fmul (magRat eb sb x) (magRat eb sb y)))

/-- IEEE-754 division on bit patterns of a binary format. -/
def fDiv (eb sb : ℕ) (x y : ℕ) : ℕ :=
  if isNaNB eb sb x || isNaNB eb sb y then qNaN eb sb
  else
    let neg : Bool := sgnB eb sb x != sgnB eb sb y
    if isInfB eb sb x && isInfB eb sb y then qNaN eb sb
    else if isZeroB eb sb x && isZeroB eb sb y then qNaN eb sb
    else if isInfB eb sb x then packSign eb sb neg (infB eb sb)
    else if isInfB eb sb y then packSign eb sb neg 0
    else if isZeroB eb sb y then packSign eb sb neg (infB eb sb)
    else if isZeroB eb sb x then packSign eb sb neg 0
    else packSign eb sb neg (roundPosRat eb sb (fdiv (magRat eb sb x) (magRat eb sb y)))

/-- IEEE-754 conversion between two binary formats (exact when widening). -/
def fCvt (eb1 sb1 eb2 sb2 b : ℕ) : ℕ :=
  if isNaNB eb1 sb1 b then qNaN eb2 sb2
  else if isInfB eb1 sb1 b then packSign eb2 sb2 (sgnB eb1 sb1 b) (infB eb2 sb2)
  else if isZeroB eb1 sb1 b then packSign eb2 sb2 (sgnB eb1 sb1 b) 0
  else packSign eb2 sb2 (sgnB eb1 sb1 b) (roundPosRat eb2 sb2 (magRat eb1 sb1 b))

/-- Float (binary32) addition. -/
def f32add (x y : ℕ) : ℕ := fAdd 8 23 x y

/-- Float (binary32) division. -/
def f32div (x y : ℕ) : ℕ := fDiv 8 23 x y

/-- Double (binary64) multiplication. -/
def f64mul (x y : ℕ) : ℕ := fMul 11 52 x y

/-- Promotion of a float to a double (exact). -/
def f32to64 (b : ℕ) : ℕ := fCvt 8 23 11 52 b

/-- Conversion of a double back to a float (rounds). -/
def f64to32 (b : ℕ) : ℕ := fCvt 11 52 8 23 b

/-- Bit pattern of the double literal 0.5 (0x3FE0000000000000). -/
def f64half : ℕ := 0x3FE0000000000000

/-- Conversion of a small signed integer to a float, as the C cast
(float)num performs (exact for the magnitudes used here). -/
def i32ToF32 (n : ℤ) : ℕ :=
  if n = 0 then 0
  else packSign 8 23 (decide (n < 0)) (roundPosRat 8 23 (fabs (fofInt n)))

/-! ## Embedding of src/sqrt/main.cpp -/

/-- The message of the invalid_argument exception thrown by all four
square-root functions. -/
def errMsg : String := "Error: input must be greater than or equal to zero."

/-- The guard comparison num < 0 of the source, on float bit patterns: true
exactly for negative non-zero non-NaN floats (NaN < 0 and -0.0 < 0 are both
false in IEEE-754). -/
def fltLt0 (b : ℕ) : Bool := sgnB 8 23 b && !isZeroB 8 23 b && !isNaNB 8 23 b

/-- float sqrt_approx(float num): after the num < 0 guard, reinterprets the
float as a 32-bit unsigned integer (union \x7b float f; uint32_t i; \x7d),
performs val.i -= 1 << 23 (wrapping), val.i >>= 1 (logical), and
val.i += 1 << 29 (wrapping), and reinterprets the result back as a float.
Reinterpretation is the identity in this bit-pattern embedding. -/
def sqrt_approx (b : ℕ) : Except String ℕ :=
  if fltLt0 b then .error errMsg
  else
    let i1 := (b + (2 ^ 32 - 2 ^ 23)) % 2 ^ 32
    let i2 := i1 / 2
    let i3 := (i2 + 2 ^ 29) % 2 ^ 32
    .ok i3

/-- The library routines the source calls whose numeric behaviour is outside
the program: pow on doubles (the call pow(num, 0.5) promotes its float
argument to double, since the exponent literal 0.5 is a double), sqrtf (the
float overload selected by sqrt(num) for a float argument), and the printf
fixed-point rendering of a double with a given width and precision. -/
structure LibM where
  pow : ℕ → ℕ → ℕ
  sqrtf : ℕ → ℕ
  fmtF : ℕ → ℕ → ℕ → String

/-- float sqrt_1(float num): guard, then return pow(num, 0.5); the call is
the double-precision pow on the promoted argument, and the double result is
converted back to float by the return. -/
def sqrt_1 (lib : LibM) (b : ℕ) : Except String ℕ :=
  if fltLt0 b then .error errMsg
  else .ok (f64to32 (lib.pow (f32to64 b) f64half))

/-- float sqrt_2(float num): guard, then return sqrt(num); the float
overload of sqrt is selected, so the result is returned unchanged. -/
def sqrt_2 (lib : LibM) (b : ℕ) : Except String ℕ :=
  if fltLt0 b then .error errMsg
  else .ok (lib.sqrtf b)

/-- One statement x = 0.5 * (x + (num / x)) of sqrt_3: float division and
addition, promotion of the sum to double, multiplication by the double
literal 0.5, and conversion back to float at the assignment (or return). -/
def newtonStep (num x : ℕ) : ℕ :=
  f64to32 (f64mul f64half (f32to64 (f32add x (f32div num x))))

/-- float sqrt_3(float num): guard, initial guess from sqrt_approx, then two
Newton iterations, returning the second. -/
def sqrt_3 (b : ℕ) : Except String ℕ :=
  if fltLt0 b then .error errMsg
  else
    match sqrt_approx b with
    | Except.error e => Except.error e
    | Except.ok x0 =>
      let x1 := newtonStep b x0
      Except.ok (newtonStep b x1)

/-- Decimal rendering of a nonnegative integer as printf %d prints the
(promoted) int8_t input. -/
def showI (n : ℤ) : String :=
  if n < 0 then "-" ++ Nat.repr (-n).toNat else Nat.repr n.toNat

/-- Rendering of an int64_t argument under the %lu conversion: the value is
reinterpreted as an unsigned 64-bit integer and printed in decimal. -/
def showU64 (t : ℤ) : String := Nat.repr (Int.emod t (2 ^ 64)).toNat

/-- void print_result(string method, int8_t num, float result, int64_t
runtime): the four printf calls, concatenated in order.  The float result is
promoted to double when passed through the varargs of printf, and %18.17f
renders it in fixed point with width 18 and precision 17. -/
def print_result (lib : LibM) (method : String) (num : ℤ) (result : ℕ)
    (runtime : ℤ) : String :=
  "\n" ++ method ++ ":\n"
    ++ "\tsqrt(" ++ showI num ++ ") = " ++ lib.fmtF 18 17 (f32to64 result) ++ "\n"
    ++ "\tAverage runtime = " ++ showU64 runtime ++ " nanoseconds.\n"

/-- One benchmark block of main: test_runs iterations, each timing one call
of the strategy; the measured duration of iteration i is the environmental
input d i (nanosecond count, an int64), accumulated into the running total,
and the call result overwrites the result variable.  An exception thrown by
the strategy propagates out.  The state is (total_runtime_ns, result); the
result starts uninitialized (none). -/
def benchLoop (f : ℕ → Except String ℕ) (num : ℕ) (d : ℕ → ℤ) :
    List ℕ → ℤ × Option ℕ → Except String (ℤ × Option ℕ)
  | [], st => Except.ok st
  | i :: rest, st =>
    match f num with
    | Except.error e => Except.error e
    | Except.ok r => benchLoop f num d rest (st.1 + d i, some r)

/-- The benchmark block of main, run over the iteration indices 0, ...,
N - 1 (see benchLoop for one iteration). -/
def benchBlock (f : ℕ → Except String ℕ) (num : ℕ) (d : ℕ → ℤ) (N : ℕ) :
    Except String (ℤ × Option ℕ) :=
  benchLoop f num d (List.range N) ((0 : ℤ), (none : Option ℕ))

/-- The benchmark harness as observed at the print site: the loop followed
by the integer division total_runtime_ns / test_runs (C++ division truncates
toward zero, which Int.tdiv models). -/
def benchReport (f : ℕ → Except String ℕ) (num : ℕ) (d : ℕ → ℤ) (N : ℕ) :
    Except String (ℤ × Option ℕ) :=
  (benchBlock f num d N).map fun p => (Int.tdiv p.1 (N : ℤ), p.2)

/-- int16_t test_runs = 10000. -/
def test_runs : ℕ := 10000

/-- int8_t num = 42. -/
def num8 : ℤ := 42

/-- The float (float)num all three strategies receive. -/
def numF : ℕ := i32ToF32 num8

/-- The label of the third report, "Newton's Method" (the apostrophe is
written as a character code). -/
def newtonLabel : String := "Newton" ++ String.singleton (Char.ofNat 39) ++ "s Method"

/-- Propagation of an uncaught exception: the continuation runs only when
the first computation produced a value. -/
def exBind (x : Except String (ℤ × Option ℕ))
    (k : ℤ × Option ℕ → Except String (String × ℕ)) : Except String (String × ℕ) :=
  match x with
  | Except.error e => Except.error e
  | Except.ok a => k a

/-- int main(int argc, char** argv): runs the three benchmark blocks in
order (sqrt_1, sqrt_2, sqrt_3), each on (float)num with test_runs
iterations, prints the three reports and a final newline, and returns 0.
The command line and the environment are passed in but never consulted; the
per-iteration durations of the three blocks are the environmental inputs
d1, d2, d3.  The result is the pair (standard output, exit code); an
uncaught exception escapes as an error instead. -/
def mainRun (lib : LibM) (d1 d2 d3 : ℕ → ℤ) (args : List String)
    (env : String → Option String) : Except String (String × ℕ) :=
  exBind (benchBlock (sqrt_1 lib) numF d1 test_runs) fun p1 =>
  exBind (benchBlock (sqrt_2 lib) numF d2 test_runs) fun p2 =>
  exBind (benchBlock sqrt_3 numF d3 test_runs) fun p3 =>
  Except.ok (print_result lib "math.h pow function" num8 (p1.2.getD 0)
        (Int.tdiv p1.1 (test_runs : ℤ))
      ++ print_result lib "cmath sqrt function" num8 (p2.2.getD 0)
        (Int.tdiv p2.1 (test_runs : ℤ))
      ++ print_result lib newtonLabel num8 (p3.2.getD 0)
        (Int.tdiv p3.1 (test_runs : ℤ))
      ++ "\n", 0)

/-! ## Definitions written from the claims, for the refinement statements -/

/-- The bit-pattern pipeline of claim C1 as the spec words it: subtract
1 << 23 (32-bit unsigned wraparound), logically shift right by 1 bit, add
1 << 29 (wraparound). -/
def specApprox (b : ℕ) : ℕ :=
  (((b + (2 ^ 32 - 2 ^ 23)) % 2 ^ 32) / 2 + 2 ^ 29) % 2 ^ 32

/-- A text line as emitted on standard output (the content followed by a
newline). -/
def lineOf (s : String) : String := s ++ "\n"

/-- One report as claim C7 describes it: a blank line, the label line, the
equation line (result in fixed point, 17 digits after the decimal point,
field width 18), and the average-runtime line with the nanosecond count
rendered as an unsigned integer. -/
def specReport (lib : LibM) (label : String) (inputInt : ℤ) (result : ℕ)
    (avgNs : ℤ) : String :=
  lineOf ""
    ++ lineOf (label ++ ":")
    ++ lineOf ("\tsqrt(" ++ showI inputInt ++ ") = "
        ++ lib.fmtF 18 17 (f32to64 result))
    ++ lineOf ("\tAverage runtime = " ++ showU64 avgNs ++ " nanoseconds.")

/-- The total of the first N per-call durations. -/
def durSum (d : ℕ → ℤ) (N : ℕ) : ℤ := ((List.range N).map d).sum

/-- A concrete instantiation of the abstract library routines, used by the
witnesses. -/
def libTriv : LibM := ⟨fun _ _ => 0, fun _ => 0, fun _ _ _ => ""⟩

/-! ## Helper lemmas -/

instance : DecidableEq (Except String ℕ) := fun x y =>
  match x, y with
  | Except.error a, Except.error b =>
    if h : a = b then isTrue (by rw [h]) else isFalse (fun hh => by cases hh; exact h rfl)
  | Except.ok a, Except.ok b =>
    if h : a = b then isTrue (by rw [h]) else isFalse (fun hh => by cases hh; exact h rfl)
  | Except.error a, Except.ok b => isFalse (fun hh => by cases hh)
  | Except.ok a, Except.error b => isFalse (fun hh => by cases hh)

theorem sqrt_approx_pass (b : ℕ) (h : fltLt0 b = false) :
    sqrt_approx b = Except.ok (specApprox b) := by
  simp [sqrt_approx, h, specApprox]

theorem sqrt_1_pass (lib : LibM) (b : ℕ) (h : fltLt0 b = false) :
    sqrt_1 lib b = Except.ok (f64to32 (lib.pow (f32to64 b) f64half)) := by
  simp [sqrt_1, h]

theorem sqrt_2_pass (lib : LibM) (b : ℕ) (h : fltLt0 b = false) :
    sqrt_2 lib b = Except.ok (lib.sqrtf b) := by
  simp [sqrt_2, h]

theorem sqrt_3_pass (b : ℕ) (h : fltLt0 b = false) :
    sqrt_3 b = Except.ok (newtonStep b (newtonStep b (specApprox b))) := by
  simp [sqrt_3, h, sqrt_approx_pass b h]

theorem benchLoop_aux (f : ℕ → Except String ℕ) (num : ℕ) (d : ℕ → ℤ) (r : ℕ)
    (hf : f num = Except.ok r) (l : List ℕ) :
    ∀ st : ℤ × Option ℕ,
      benchLoop f num d l st
        = Except.ok (st.1 + (l.map d).sum, if l.isEmpty then st.2 else some r) := by
  induction l with
  | nil => intro st; simp [benchLoop]
  | cons a t ih =>
    intro st
    rw [benchLoop, hf]
    show benchLoop f num d t (st.1 + d a, some r) = _
    rw [ih (st.1 + d a, some r)]
    simp [add_assoc]

theorem benchBlock_ok (f : ℕ → Except String ℕ) (num : ℕ) (d : ℕ → ℤ) (N : ℕ)
    (r : ℕ) (hf : f num = Except.ok r) (hN : 0 < N) :
    benchBlock f num d N = Except.ok (durSum d N, some r) := by
  unfold benchBlock durSum
  rw [benchLoop_aux f num d r hf]
  simp [List.isEmpty_iff, List.range_eq_nil, Nat.pos_iff_ne_zero.mp hN]

theorem benchLoop_err (f : ℕ → Except String ℕ) (num : ℕ) (d : ℕ → ℤ)
    (e : String) (hf : f num = Except.error e) (l : List ℕ) (st : ℤ × Option ℕ)
    (hne : l ≠ []) : benchLoop f num d l st = Except.error e := by
  cases l with
  | nil => exact absurd rfl hne
  | cons a t => rw [benchLoop, hf]

theorem benchBlock_err (f : ℕ → Except String ℕ) (num : ℕ) (d : ℕ → ℤ) (N : ℕ)
    (e : String) (hf : f num = Except.error e) (hN : 0 < N) :
    benchBlock f num d N = Except.error e := by
  unfold benchBlock
  refine benchLoop_err f num d e hf _ _ ?_
  simp [List.range_eq_nil]
  omega

/-- The value the Newton strategy computes for the benchmark input: sqrt_3
applied to the bits of 42.0f yields the bits 0x40CF623A (about 6.4807405,
against the true square root 6.4807407). -/
theorem sqrt_3_at_42 : sqrt_3 numF = Except.ok 1087332922 := by decide

theorem mainRun_eq (lib : LibM) (d1 d2 d3 : ℕ → ℤ) (args : List String)
    (env : String → Option String) :
    mainRun lib d1 d2 d3 args env = Except.ok (
      print_result lib "math.h pow function" num8
          (f64to32 (lib.pow (f32to64 numF) f64half))
          (Int.tdiv (durSum d1 test_runs) (test_runs : ℤ))
        ++ print_result lib "cmath sqrt function" num8 (lib.sqrtf numF)
          (Int.tdiv (durSum d2 test_runs) (test_runs : ℤ))
        ++ print_result lib newtonLabel num8 1087332922
          (Int.tdiv (durSum d3 test_runs) (test_runs : ℤ))
        ++ "\n", 0) := by
  have h0 : fltLt0 numF = false := by decide
  have hN : 0 < test_runs := by decide
  have h1 := benchBlock_ok (sqrt_1 lib) numF d1 test_runs _ (sqrt_1_pass lib numF h0) hN
  have h2 := benchBlock_ok (sqrt_2 lib) numF d2 test_runs _ (sqrt_2_pass lib numF h0) hN
  have h3 := benchBlock_ok sqrt_3 numF d3 test_runs _ sqrt_3_at_42 hN
  have hB : ∀ (a : ℤ × Option ℕ) (k : ℤ × Option ℕ → Except String (String × ℕ)),
      exBind (Except.ok a) k = k a := fun _ _ => rfl
  delta mainRun
  rw [h1, hB]
  rw [h2, hB]
  rw [h3, hB]
  simp only [Option.getD_some]

theorem tdiv_nonneg_eq_ediv (a : ℤ) (n : ℕ) (ha : 0 ≤ a) :
    Int.tdiv a (n : ℤ) = Int.ediv a (n : ℤ) := by
  obtain ⟨s, rfl⟩ := Int.eq_ofNat_of_zero_le ha
  rfl

theorem specReport_eq_print (lib : LibM) (lbl : String) (res : ℕ) (t : ℤ) :
    specReport lib lbl num8 res t = print_result lib lbl num8 res t := by
  simp only [specReport, print_result, lineOf, String.append_assoc]
  rfl

/-! ## The claims -/

/-- C1: For every non-negative finite float num, sqrt_approx(num) is
computed by exactly these steps on the 32-bit unsigned integer
reinterpretation of the IEEE-754 bit pattern of num, in order: subtract
1 << 23, logically shift right by 1 bit, add 1 << 29, then reinterpret the
resulting 32-bit integer back as a float, which is the returned value
(specApprox is that pipeline as the spec words it; floats are embedded as
their bit patterns, so the reinterpretations are identities). -/
theorem claim_C1 (b : ℕ) (hw : b < 2 ^ 32) (hfin : isFiniteB 8 23 b = true)
    (hnn : fltLt0 b = false) : sqrt_approx b = Except.ok (specApprox b) :=
  sqrt_approx_pass b hnn

theorem claim_C1_wit :
    (1109917696 < 2 ^ 32 ∧ isFiniteB 8 23 1109917696 = true
      ∧ fltLt0 1109917696 = false)
    ∧ sqrt_approx 1109917696 = Except.ok (specApprox 1109917696) :=
  ⟨⟨by decide, by decide, by decide⟩,
    claim_C1 1109917696 (by decide) (by decide) (by decide)⟩

/-- C2: For every float num ≥ 0 (fltLt0 num = false), sqrt_3(num) takes the
initial guess x0 = sqrt_approx(num) and applies exactly two iterations of
the update x = 0.5 * (x + num / x) (newtonStep, with the precision of the
source: float division and addition, the multiplication by the double
literal 0.5 carried out in double, rounded back to float), returning the
result of the second iteration.  The guard is sqrt_3's own first statement
(see its definition), independent of the guard inside sqrt_approx. -/
theorem claim_C2 (b : ℕ) (h : fltLt0 b = false) :
    ∃ x0, sqrt_approx b = Except.ok x0
      ∧ sqrt_3 b = Except.ok (newtonStep b (newtonStep b x0)) :=
  ⟨specApprox b, sqrt_approx_pass b h, sqrt_3_pass b h⟩

theorem claim_C2_wit :
    fltLt0 1109917696 = false
    ∧ ∃ x0, sqrt_approx 1109917696 = Except.ok x0
        ∧ sqrt_3 1109917696 = Except.ok (newtonStep 1109917696 (newtonStep 1109917696 x0)) :=
  ⟨by decide, claim_C2 1109917696 (by decide)⟩

/-- C3: For every float num < 0, each of the four functions sqrt_approx,
sqrt_1, sqrt_2 and sqrt_3 raises the InvalidArgument error ("Error: input
must be greater than or equal to zero.") and produces no result; no
component catches or recovers from it: the benchmark loop propagates the
failure unchanged. -/
theorem claim_C3 (lib : LibM) (b : ℕ) (h : fltLt0 b = true) (d : ℕ → ℤ)
    (N : ℕ) (hN : 0 < N) :
    sqrt_approx b = Except.error errMsg
    ∧ sqrt_1 lib b = Except.error errMsg
    ∧ sqrt_2 lib b = Except.error errMsg
    ∧ sqrt_3 b = Except.error errMsg
    ∧ benchBlock sqrt_3 b d N = Except.error errMsg := by
  refine ⟨by simp [sqrt_approx, h], by simp [sqrt_1, h], by simp [sqrt_2, h],
    by simp [sqrt_3, h], ?_⟩
  exact benchBlock_err sqrt_3 b d N errMsg (by simp [sqrt_3, h]) hN

theorem claim_C3_wit :
    (fltLt0 3212836864 = true ∧ 0 < 1)
    ∧ (sqrt_approx 3212836864 = Except.error errMsg
        ∧ sqrt_1 libTriv 3212836864 = Except.error errMsg
        ∧ sqrt_2 libTriv 3212836864 = Except.error errMsg
        ∧ sqrt_3 3212836864 = Except.error errMsg
        ∧ benchBlock sqrt_3 3212836864 (fun _ => 0) 1 = Except.error errMsg) :=
  ⟨⟨by decide, by decide⟩,
    claim_C3 libTriv 3212836864 (by decide) (fun _ => 0) 1 (by decide)⟩

/-- C4: For every repetition count N > 0 and every sequence of N
nonnegative per-call durations d summed into the signed total, the harness
reports the average floor(sum / N) (the C++ division truncates toward zero,
which on the nonnegative total equals the floor, Int.ediv) and only the
last call's result (the per-call result is overwritten each iteration:
the state of benchLoop); for N = 1 the reported average is the single
measured duration exactly. -/
theorem claim_C4 (f : ℕ → Except String ℕ) (num : ℕ) (d : ℕ → ℤ) (N : ℕ)
    (r : ℕ) (hf : f num = Except.ok r) (hN : 0 < N) (hd : ∀ i, 0 ≤ d i) :
    benchReport f num d N = Except.ok (Int.ediv (durSum d N) (N : ℤ), some r)
    ∧ benchReport f num d 1 = Except.ok (d 0, some r) := by
  have hS : 0 ≤ durSum d N := by
    refine List.sum_nonneg ?_
    intro x hx
    obtain ⟨i, _, rfl⟩ := List.mem_map.mp hx
    exact hd i
  constructor
  · unfold benchReport
    rw [benchBlock_ok f num d N r hf hN]
    simp [Except.map, tdiv_nonneg_eq_ediv (durSum d N) N hS]
  · unfold benchReport
    rw [benchBlock_ok f num d 1 r hf (by decide)]
    simp [Except.map, durSum, show List.range 1 = [0] from rfl]

theorem claim_C4_wit :
    (sqrt_3 numF = Except.ok 1087332922 ∧ 0 < 2
      ∧ ∀ i : ℕ, 0 ≤ (fun _ : ℕ => (5 : ℤ)) i)
    ∧ (benchReport sqrt_3 numF (fun _ => 5) 2
          = Except.ok (Int.ediv (durSum (fun _ => 5) 2) ((2 : ℕ) : ℤ), some 1087332922)
        ∧ benchReport sqrt_3 numF (fun _ => 5) 1 = Except.ok (5, some 1087332922)) :=
  ⟨⟨by decide, by decide, fun _ => by show (0 : ℤ) ≤ 5; decide⟩,
    claim_C4 sqrt_3 numF (fun _ => 5) 2 1087332922 (by decide) (by decide)
      (fun _ => by show (0 : ℤ) ≤ 5; decide)⟩

/-- C5: sqrt_2 applied to 42.0f (numF is the bit pattern the cast (float)42
produces) returns exactly the value of the dedicated square-root primitive
sqrt(42.0f) — the same bits — since after its non-negativity check sqrt_2
delegates directly, whatever the primitive computes (the statement holds
for every library). -/
theorem claim_C5 (lib : LibM) : sqrt_2 lib numF = Except.ok (lib.sqrtf numF) :=
  sqrt_2_pass lib numF (by decide)

/-- C7: The complete standard output of the program consists of exactly
three reports in the fixed order [power function, dedicated square-root
primitive, approximation plus Newton], each a blank line, the label line,
the line sqrt(42) = result (the result formatted fixed-point with 17 digits
after the decimal point in a field of width 18 — the 18 and 17 passed to the
formatter), and the average-runtime line with the nanosecond count rendered
as an unsigned integer, followed by one final trailing blank line; the exit
code is 0.  (1087332922 is the value sqrt_3 computes at 42.0f, theorem
sqrt_3_at_42.) -/
theorem claim_C7 (lib : LibM) (d1 d2 d3 : ℕ → ℤ) (args : List String)
    (env : String → Option String) :
    mainRun lib d1 d2 d3 args env = Except.ok (
      specReport lib "math.h pow function" num8
          (f64to32 (lib.pow (f32to64 numF) f64half))
          (Int.tdiv (durSum d1 test_runs) (test_runs : ℤ))
        ++ specReport lib "cmath sqrt function" num8 (lib.sqrtf numF)
          (Int.tdiv (durSum d2 test_runs) (test_runs : ℤ))
        ++ specReport lib newtonLabel num8 1087332922
          (Int.tdiv (durSum d3 test_runs) (test_runs : ℤ))
        ++ lineOf "", 0) := by
  rw [mainRun_eq lib d1 d2 d3 args env]
  rw [specReport_eq_print, specReport_eq_print, specReport_eq_print]
  rfl

/-- C8: The output of the program does not depend on the command line or
the environment (mainRun never consults args or env; the first equation is
definitional), the input 42 and the repetition count 10000 are the fixed
internal constants num8 and test_runs used by mainRun, and on normal
completion the exit code is 0. -/
theorem claim_C8 (lib : LibM) (d1 d2 d3 : ℕ → ℤ) (args args2 : List String)
    (env env2 : String → Option String) :
    mainRun lib d1 d2 d3 args env = mainRun lib d1 d2 d3 args2 env2
    ∧ ∃ out, mainRun lib d1 d2 d3 args env = Except.ok (out, 0) :=
  ⟨rfl, ⟨_, mainRun_eq lib d1 d2 d3 args env⟩⟩

set_option maxRecDepth 8000 in
/-- C9: sqrt_approx(0.0f) does not return zero: subtracting 1 << 23 from
the all-zero bit pattern wraps modulo 2^32 to 0xFF800000, the shift and the
addition produce 0x9FC00000, whose float value is negative, nonzero, and
exactly -3 / 2^65 (about -8.13e-20); consequently sqrt_3(0.0f) returns
0x9EC00000, also negative and nonzero (exactly -3 / 2^67), rather than 0. -/
theorem claim_C9 :
    (0 + (2 ^ 32 - 2 ^ 23)) % 2 ^ 32 = 0xFF800000
    ∧ ((0xFF800000 / 2 : ℕ) + 2 ^ 29) % 2 ^ 32 = 0x9FC00000
    ∧ sqrt_approx 0 = Except.ok 0x9FC00000
    ∧ sgnB 8 23 0x9FC00000 = true
    ∧ isZeroB 8 23 0x9FC00000 = false
    ∧ (valRat 8 23 0x9FC00000).n * Int.ofNat (2 ^ 65) = -3 * (valRat 8 23 0x9FC00000).d
    ∧ sqrt_3 0 = Except.ok 0x9EC00000
    ∧ sgnB 8 23 0x9EC00000 = true
    ∧ isZeroB 8 23 0x9EC00000 = false
    ∧ (valRat 8 23 0x9EC00000).n * Int.ofNat (2 ^ 67) = -3 * (valRat 8 23 0x9EC00000).d := by
  refine ⟨by decide, by decide, by decide, by decide, by decide, by decide,
    by decide, by decide, by decide, by decide⟩

/-- C10: For a NaN input, none of the four functions raises the
InvalidArgument error, because the guard comparison num < 0 is false for
NaN; each proceeds and returns a value. -/
theorem claim_C10 (lib : LibM) (b : ℕ) (h : isNaNB 8 23 b = true) :
    fltLt0 b = false
    ∧ (∃ r, sqrt_approx b = Except.ok r)
    ∧ (∃ r, sqrt_1 lib b = Except.ok r)
    ∧ (∃ r, sqrt_2 lib b = Except.ok r)
    ∧ (∃ r, sqrt_3 b = Except.ok r) := by
  have hl : fltLt0 b = false := by simp [fltLt0, h]
  exact ⟨hl, ⟨_, sqrt_approx_pass b hl⟩, ⟨_, sqrt_1_pass lib b hl⟩,
    ⟨_, sqrt_2_pass lib b hl⟩, ⟨_, sqrt_3_pass b hl⟩⟩

theorem claim_C10_wit :
    isNaNB 8 23 0x7FC00000 = true
    ∧ (fltLt0 0x7FC00000 = false
        ∧ (∃ r, sqrt_approx 0x7FC00000 = Except.ok r)
        ∧ (∃ r, sqrt_1 libTriv 0x7FC00000 = Except.ok r)
        ∧ (∃ r, sqrt_2 libTriv 0x7FC00000 = Except.ok r)
        ∧ (∃ r, sqrt_3 0x7FC00000 = Except.ok r)) :=
  ⟨by decide, claim_C10 libTriv 0x7FC00000 (by decide)⟩

end SqrtBench
